import Mathlib

/-!
Verification of the OnTrak session-progression engine (`src/app.py`).

Shallow embedding conventions:
* Wall-clock times of day ("HH:MM" strings in the database, always produced by
  `strftime("%H:%M")`, i.e. zero-padded) are modelled as minutes-of-day `Nat`
  values; lexicographic order on zero-padded "HH:MM" strings coincides with
  numeric order on minutes, so SQL string comparisons on `start_time` become
  `Nat` comparisons.
* `int((end_time - start_time).total_seconds() / 60)` on two same-day "HH:MM"
  values is exactly the signed difference of their minutes-of-day, so actual
  durations are `Int` values.
* The database is a `State` record: the template rows, the activity rows (in
  rowid order), and the one session acted on.  `ORDER BY start_time ... first()`
  becomes "first element of minimal `start_time`" over that list.
* SQLAlchemy `db.session.get(Model, id)` becomes `List.find?` on the id.
* Python truthiness on the integer column `current_activity_id`
  (`if session.current_activity_id:`) is `some aid` with `aid ≠ 0`, while
  `is not None` is plain `Option.isSome`.
* An operation whose Python code would raise an uncaught exception (for
  example `strptime(None, ...)`) returns `none`.
-/

namespace OnTrak

/-- Activity row of `src/app.py` (class `Activity`): template-owned, per-day,
with planned `start_time`/`duration` and nullable actual timing fields. -/
structure Activity where
  id : Nat
  template_id : Nat
  day : Nat
  name : String
  start_time : Nat
  duration : Nat
  completed : Bool
  actual_start_time : Option Nat
  actual_end_time : Option Nat
  actual_duration : Option Int
deriving Repr, DecidableEq

/-- Template row of `src/app.py` (class `Template`); `duration` is the number
of days. -/
structure Template where
  id : Nat
  name : String
  duration : Nat
deriving Repr, DecidableEq

/-- Session row of `src/app.py` (class `Session`); dates are abstracted to
`Nat` day stamps. -/
structure Session where
  id : Nat
  template_id : Nat
  name : String
  current_day : Nat
  day_started : Bool
  current_activity_id : Option Nat
  end_date : Option Nat
deriving Repr, DecidableEq

/-- The database state an operation acts on: all template rows, all activity
rows in rowid order, and the session being operated on. -/
structure State where
  templates : List Template
  activities : List Activity
  session : Session
deriving Repr, DecidableEq

/-- JSON response of a route: the `success` flag, the `message`, and the HTTP
status code (200 when the route returns bare `jsonify(...)`). -/
structure ApiResponse where
  success : Bool
  message : String
  status : Nat
deriving Repr, DecidableEq

/-- Error kinds named by the spec's error taxonomy. -/
inductive ErrKind where
  | notFound
  | validation
deriving Repr, DecidableEq

/-- The `db.session.get(Activity, aid)` lookup: first activity row with the
given primary key. -/
def getActivity (acts : List Activity) (aid : Nat) : Option Activity :=
  acts.find? (fun a => a.id == aid)

/-- The `db.session.get(Template, tid)` lookup (also the `session.template`
backref). -/
def getTemplate (tpls : List Template) (tid : Nat) : Option Template :=
  tpls.find? (fun t => t.id == tid)

/-- `Activity.query.filter_by(template_id=tid, day=d)`: the day-group of a
template, in rowid order. -/
def dayGroup (acts : List Activity) (tid d : Nat) : List Activity :=
  acts.filter (fun a => a.template_id == tid && a.day == d)

/-- `order_by(Activity.start_time).first()`: the first listed element with
minimal `start_time` (head of a stable ascending sort). -/
def minByStart : List Activity → Option Activity
  | [] => none
  | a :: rest =>
    match minByStart rest with
    | none => some a
    | some b => if a.start_time ≤ b.start_time then some a else some b

/-- `order_by(Activity.start_time.desc()).first()`: the first listed element
with maximal `start_time` (head of a stable descending sort). -/
def maxByStart : List Activity → Option Activity
  | [] => none
  | a :: rest =>
    match maxByStart rest with
    | none => some a
    | some b => if b.start_time ≤ a.start_time then some a else some b

/-- The ordering query of `Session.get_next_activity` (line 71 of
`src/app.py`): same day-group, `start_time` strictly greater than the given
activity's, ascending, first. -/
def nextAfter (acts : List Activity) (tid d : Nat) (cur : Activity) : Option Activity :=
  minByStart ((dayGroup acts tid d).filter (fun a => cur.start_time < a.start_time))

/-- The ordering query of `undo_move` (line 258 of `src/app.py`): same
day-group, `start_time` strictly smaller, descending, first. -/
def previousBefore (acts : List Activity) (tid d : Nat) (cur : Activity) : Option Activity :=
  maxByStart ((dayGroup acts tid d).filter (fun a => a.start_time < cur.start_time))

/-- ORM row update: apply `f` to the activity row with primary key `aid`. -/
def updateActivity (acts : List Activity) (aid : Nat) (f : Activity → Activity) : List Activity :=
  acts.map (fun a => if a.id == aid then f a else a)

/-- Line 203 / line 244 of `src/app.py`:
`activity.actual_start_time = datetime.now().strftime("%H:%M")`. -/
def stampStart (now : Nat) (a : Activity) : Activity :=
  { a with actual_start_time := some now }

/-- Lines 216-219 of `src/app.py` (`end_day`): stamp `actual_end_time = now`
and set `actual_duration` to the signed minute difference from the parsed
`actual_start_time` `s`. -/
def closeOut (now s : Nat) (a : Activity) : Activity :=
  { a with actual_end_time := some now,
           actual_duration := some ((now : Int) - (s : Int)) }

/-- Lines 236-240 of `src/app.py` (`move_to_next_activity`): additionally set
`completed = True`. -/
def finishOut (now s : Nat) (a : Activity) : Activity :=
  { a with completed := true, actual_end_time := some now,
           actual_duration := some ((now : Int) - (s : Int)) }

/-- Lines 262-264 of `src/app.py` (`undo_move`, current activity): null out all
three actual timing fields. -/
def clearTiming (a : Activity) : Activity :=
  { a with actual_start_time := none, actual_end_time := none, actual_duration := none }

/-- Lines 265-267 of `src/app.py` (`undo_move`, previous activity): revert
`completed`, `actual_end_time`, `actual_duration`; `actual_start_time` is left
alone. -/
def revertPrev (a : Activity) : Activity :=
  { a with completed := false, actual_end_time := none, actual_duration := none }

/-- Key-preservation of a row transformation: primary key, owning template,
day, and planned `start_time` unchanged. -/
def keepsKeys (f : Activity → Activity) : Prop :=
  ∀ a, (f a).id = a.id ∧ (f a).template_id = a.template_id ∧
    (f a).day = a.day ∧ (f a).start_time = a.start_time

/-- `Session.get_first_activity_of_day` of `src/app.py`. -/
def get_first_activity_of_day (st : State) : Option Activity :=
  minByStart (dayGroup st.activities st.session.template_id st.session.current_day)

/-- `Session.get_next_activity` of `src/app.py`: `none` when the cursor is
null or dangling. -/
def get_next_activity (st : State) : Option Activity :=
  match st.session.current_activity_id with
  | none => none
  | some aid =>
    match getActivity st.activities aid with
    | none => none
    | some cur => nextAfter st.activities st.session.template_id st.session.current_day cur

/-- Route `start_day` of `src/app.py` (session already resolved), with `now`
the clock's minutes-of-day. -/
def start_day (now : Nat) (st : State) : State × ApiResponse :=
  if st.session.day_started then
    (st, ⟨false, "Day already started", 200⟩)
  else
    let st1 : State := { st with session := { st.session with day_started := true } }
    match get_first_activity_of_day st1 with
    | some fa =>
      let st2 : State :=
        { st1 with
          session := { st1.session with current_activity_id := some fa.id }
          activities := updateActivity st1.activities fa.id (stampStart now) }
      (st2, ⟨true, "Day started successfully", 200⟩)
    | none => (st1, ⟨true, "Day started successfully", 200⟩)

/-- Lines 213-219 of `src/app.py` (the first half of route `end_day`): when
the cursor is truthy, the activity row resolves, and its `actual_end_time` is
unset, stamp `actual_end_time = now` and compute `actual_duration`; `none`
models the `strptime(None, ...)` exception on a missing `actual_start_time`. -/
def closeCurrentActivity (now : Nat) (st : State) : Option (List Activity) :=
  match st.session.current_activity_id with
  | some aid =>
    if aid ≠ 0 then
      match getActivity st.activities aid with
      | some cur =>
        if cur.actual_end_time = none then
          match cur.actual_start_time with
          | some s => some (updateActivity st.activities aid (closeOut now s))
          | none => none
        else some st.activities
      | none => some st.activities
    else some st.activities
  | none => some st.activities

/-- Route `end_day` of `src/app.py` (session already resolved); `now` is the
clock's minutes-of-day and `today` its date.  Returns `none` when the Python
code would raise (`strptime(None, ...)` on a missing `actual_start_time`, or
`session.template` not resolving). -/
def end_day (now today : Nat) (st : State) : Option (State × ApiResponse) :=
  match closeCurrentActivity now st with
  | none => none
  | some acts1 =>
    match getTemplate st.templates st.session.template_id with
    | none => none
    | some t =>
      let s1 : Session :=
        { st.session with
          current_day := st.session.current_day + 1
          day_started := false
          current_activity_id := none }
      let s2 : Session :=
        if s1.current_day > t.duration then { s1 with end_date := some today } else s1
      some ({ st with activities := acts1, session := s2 }, ⟨true, "", 200⟩)

/-- Route `move_to_next_activity` of `src/app.py` (session already resolved).
Returns `none` when the Python code would raise (`strptime(None, ...)` on a
missing `actual_start_time`). -/
def move_to_next_activity (now : Nat) (st : State) : Option (State × ApiResponse) :=
  match st.session.current_activity_id with
  | none => some (st, ⟨false, "No current activity to move from", 200⟩)
  | some aid =>
    match getActivity st.activities aid with
    | none => some (st, ⟨false, "No current activity to move from", 200⟩)
    | some cur =>
      match cur.actual_start_time with
      | none => none
      | some s =>
        let acts1 := updateActivity st.activities aid (finishOut now s)
        let st1 : State := { st with activities := acts1 }
        match get_next_activity st1 with
        | some n =>
          some ({ st with
                    activities := updateActivity acts1 n.id (stampStart now)
                    session := { st.session with current_activity_id := some n.id } },
                ⟨true, "Moved to next activity successfully", 200⟩)
        | none =>
          some ({ st with
                    activities := acts1
                    session := { st.session with current_activity_id := none } },
                ⟨true, "Moved to next activity successfully", 200⟩)

/-- Route `undo_move` of `src/app.py` (session already resolved). -/
def undo_move (st : State) : State × ApiResponse :=
  let cur : Option Activity :=
    match st.session.current_activity_id with
    | some aid => if aid ≠ 0 then getActivity st.activities aid else none
    | none => none
  let prev : Option Activity :=
    match cur with
    | some c => previousBefore st.activities st.session.template_id st.session.current_day c
    | none => none
  match prev with
  | some p =>
    let acts1 :=
      match cur with
      | some c => updateActivity st.activities c.id clearTiming
      | none => st.activities
    let acts2 := updateActivity acts1 p.id revertPrev
    ({ st with activities := acts2,
               session := { st.session with current_activity_id := some p.id } },
     ⟨true, "Undo successful", 200⟩)
  | none => (st, ⟨false, "Cannot undo, no previous activity found", 200⟩)

/-- Modelled from the spec: `server/database.js`'s `createSession` is not under
`src/` (only its caller, route `start_session` of `src/app.py`, is).  Per the
spec, startSession "creates a Session with `current_day=1`, `day_started=false`.
Fails with `NotFoundError` if templateId does not resolve."  The defaults
`current_day = 1` and `day_started = false` also match the `Session` model
declaration in `src/app.py`. -/
def createSession (tpls : List Template) (tid : Nat) (nm : String) (sid : Nat) :
    Except ErrKind Session :=
  match getTemplate tpls tid with
  | none => Except.error ErrKind.notFound
  | some _ =>
    Except.ok
      { id := sid, template_id := tid, name := nm, current_day := 1,
        day_started := false, current_activity_id := none, end_date := none }

/-- Route `start_session` of `src/app.py`: the route itself rejects a missing
`template_id` or an empty `session_name` with HTTP 400 (a `ValidationError`)
before delegating to the storage collaborator's `createSession`. -/
def start_session (tpls : List Template) (tid : Option Nat) (nm : String) (sid : Nat) :
    Except ErrKind Session :=
  match tid with
  | none => Except.error ErrKind.validation
  | some t => if nm = "" then Except.error ErrKind.validation else createSession tpls t nm sid

/-- Cursor invariant of the spec's data model: a non-null
`current_activity_id` resolves to an activity row of the session's
`(template_id, current_day)` day-group. -/
def cursorInv (st : State) : Prop :=
  ∀ aid, st.session.current_activity_id = some aid →
    ∃ a, getActivity st.activities aid = some a ∧
      a.template_id = st.session.template_id ∧ a.day = st.session.current_day

/-! Helper lemmas about the query functions. -/

theorem minByStart_mem {l : List Activity} {b : Activity} (h : minByStart l = some b) :
    b ∈ l := by
  induction l with
  | nil => simp [minByStart] at h
  | cons a rest ih =>
    simp only [minByStart] at h
    cases hrec : minByStart rest with
    | none => rw [hrec] at h; simp at h; simp [h]
    | some c =>
      rw [hrec] at h
      by_cases hle : a.start_time ≤ c.start_time
      · simp [hle] at h; simp [h]
      · simp [hle] at h
        exact List.mem_cons_of_mem a (ih (h ▸ hrec))

theorem minByStart_isSome {l : List Activity} (h : l ≠ []) :
    (minByStart l).isSome := by
  cases l with
  | nil => exact absurd rfl h
  | cons a rest =>
    simp only [minByStart]
    cases minByStart rest with
    | none => rfl
    | some b => by_cases hle : a.start_time ≤ b.start_time <;> simp [hle]

theorem minByStart_le {l : List Activity} :
    ∀ {b : Activity}, minByStart l = some b → ∀ c ∈ l, b.start_time ≤ c.start_time := by
  induction l with
  | nil => intro b h; simp [minByStart] at h
  | cons a rest ih =>
    intro b h c hc
    simp only [minByStart] at h
    cases hrec : minByStart rest with
    | none =>
      rw [hrec] at h
      simp only [Option.some.injEq] at h
      subst h
      cases hc with
      | head => exact le_refl _
      | tail _ hm =>
        exfalso
        have hne : rest ≠ [] := List.ne_nil_of_mem hm
        have hs := minByStart_isSome hne
        rw [hrec] at hs
        simp at hs
    | some d =>
      rw [hrec] at h
      by_cases hle : a.start_time ≤ d.start_time
      · simp only [hle, if_true, Option.some.injEq] at h
        subst h
        cases hc with
        | head => exact le_refl _
        | tail _ hm => exact le_trans hle (ih hrec c hm)
      · simp only [hle, if_false, Option.some.injEq] at h
        subst h
        cases hc with
        | head => exact le_of_not_le hle
        | tail _ hm => exact ih hrec c hm

theorem maxByStart_mem {l : List Activity} {b : Activity} (h : maxByStart l = some b) :
    b ∈ l := by
  induction l with
  | nil => simp [maxByStart] at h
  | cons a rest ih =>
    simp only [maxByStart] at h
    cases hrec : maxByStart rest with
    | none => rw [hrec] at h; simp at h; simp [h]
    | some c =>
      rw [hrec] at h
      by_cases hle : c.start_time ≤ a.start_time
      · simp [hle] at h; simp [h]
      · simp [hle] at h
        exact List.mem_cons_of_mem a (ih (h ▸ hrec))

theorem maxByStart_eq_of_unique_max {l : List Activity} {a : Activity}
    (hmem : a ∈ l) (hmax : ∀ c ∈ l, c ≠ a → c.start_time < a.start_time) :
    maxByStart l = some a := by
  induction l with
  | nil => simp at hmem
  | cons x rest ih =>
    simp only [maxByStart]
    cases hmem with
    | head =>
      cases hrec : maxByStart rest with
      | none => rfl
      | some b =>
        have hb : b ∈ rest := maxByStart_mem hrec
        by_cases hba : b = a
        · subst hba; simp
        · have := hmax b (List.mem_cons_of_mem a hb) hba
          simp [le_of_lt this]
    | tail _ hm =>
      have hrest : maxByStart rest = some a :=
        ih hm (fun c hc hne => hmax c (List.mem_cons_of_mem x hc) hne)
      rw [hrest]
      by_cases hxaeq : x = a
      · subst hxaeq; simp
      · have := hmax x (List.mem_cons_self x rest) hxaeq
        simp [not_le_of_lt this, le_of_lt this]

theorem filter_map_comm {g : Activity → Activity} {p q : Activity → Bool}
    (hpq : ∀ x, p (g x) = q x) (l : List Activity) :
    (l.map g).filter p = (l.filter q).map g := by
  induction l with
  | nil => rfl
  | cons a rest ih =>
    simp only [List.map_cons, List.filter_cons, hpq]
    cases hqa : q a <;> simp [hqa, ih]

theorem minByStart_map {g : Activity → Activity}
    (hg : ∀ x, (g x).start_time = x.start_time) (l : List Activity) :
    minByStart (l.map g) = (minByStart l).map g := by
  induction l with
  | nil => rfl
  | cons a rest ih =>
    simp only [List.map_cons, minByStart, ih]
    cases minByStart rest with
    | none => rfl
    | some b =>
      by_cases hle : a.start_time ≤ b.start_time <;> simp [hg, hle]

theorem maxByStart_map {g : Activity → Activity}
    (hg : ∀ x, (g x).start_time = x.start_time) (l : List Activity) :
    maxByStart (l.map g) = (maxByStart l).map g := by
  induction l with
  | nil => rfl
  | cons a rest ih =>
    simp only [List.map_cons, maxByStart, ih]
    cases maxByStart rest with
    | none => rfl
    | some b =>
      by_cases hle : b.start_time ≤ a.start_time <;> simp [hg, hle]

theorem dayGroup_map {g : Activity → Activity}
    (htd : ∀ x, (g x).template_id = x.template_id ∧ (g x).day = x.day)
    (l : List Activity) (tid d : Nat) :
    dayGroup (l.map g) tid d = (dayGroup l tid d).map g :=
  filter_map_comm (fun x => by simp [(htd x).1, (htd x).2]) l

theorem getActivity_map {g : Activity → Activity} (hg : ∀ x, (g x).id = x.id)
    (l : List Activity) (aid : Nat) :
    getActivity (l.map g) aid = (getActivity l aid).map g := by
  induction l with
  | nil => rfl
  | cons a rest ih =>
    simp only [getActivity, List.map_cons, List.find?]
    rw [hg a]
    cases hab : (a.id == aid) <;> simp_all [getActivity]

theorem map_id_map {g : Activity → Activity} (hg : ∀ x, (g x).id = x.id)
    (l : List Activity) : (l.map g).map Activity.id = l.map Activity.id := by
  induction l with
  | nil => rfl
  | cons a rest ih => simp [hg, ih]

theorem getActivity_mem {l : List Activity} {aid : Nat} {a : Activity}
    (h : getActivity l aid = some a) : a ∈ l :=
  List.mem_of_find?_eq_some h

theorem getActivity_id {l : List Activity} {aid : Nat} {a : Activity}
    (h : getActivity l aid = some a) : a.id = aid := by
  have := List.find?_some h
  simpa using this

theorem getActivity_of_mem_nodup {l : List Activity} {a : Activity}
    (hnd : (l.map Activity.id).Nodup) (hmem : a ∈ l) :
    getActivity l a.id = some a := by
  induction l with
  | nil => simp at hmem
  | cons x rest ih =>
    simp only [List.map_cons, List.nodup_cons] at hnd
    cases hmem with
    | head => exact List.find?_cons_of_pos rest (by simp)
    | tail _ hm =>
      have hne : ¬(x.id == a.id) = true := by
        simp only [beq_iff_eq]
        intro he
        exact hnd.1 (he ▸ List.mem_map_of_mem Activity.id hm)
      have : getActivity (x :: rest) a.id = getActivity rest a.id :=
        List.find?_cons_of_neg rest hne
      rw [this]
      exact ih hnd.2 hm

theorem mem_id_inj {l : List Activity} (hnd : (l.map Activity.id).Nodup)
    {a b : Activity} (ha : a ∈ l) (hb : b ∈ l) (hid : a.id = b.id) : a = b := by
  have h1 := getActivity_of_mem_nodup hnd ha
  have h2 := getActivity_of_mem_nodup hnd hb
  rw [hid] at h1
  exact Option.some.inj (h1.symm.trans h2)

theorem mem_dayGroup {acts : List Activity} {tid d : Nat} {a : Activity}
    (h : a ∈ dayGroup acts tid d) :
    a ∈ acts ∧ a.template_id = tid ∧ a.day = d := by
  simp only [dayGroup, List.mem_filter, Bool.and_eq_true, beq_iff_eq] at h
  exact ⟨h.1, h.2.1, h.2.2⟩

theorem dayGroup_mem_of {acts : List Activity} {tid d : Nat} {a : Activity}
    (ha : a ∈ acts) (h1 : a.template_id = tid) (h2 : a.day = d) :
    a ∈ dayGroup acts tid d := by
  simp only [dayGroup, List.mem_filter, Bool.and_eq_true, beq_iff_eq]
  exact ⟨ha, h1, h2⟩

theorem nextAfter_map {g : Activity → Activity}
    (htd : ∀ x, (g x).template_id = x.template_id ∧ (g x).day = x.day)
    (hst : ∀ x, (g x).start_time = x.start_time)
    (acts : List Activity) (tid d : Nat) {c c' : Activity}
    (hcc : c'.start_time = c.start_time) :
    nextAfter (acts.map g) tid d c' = (nextAfter acts tid d c).map g := by
  unfold nextAfter
  rw [dayGroup_map htd,
    @filter_map_comm g (fun a => decide (c'.start_time < a.start_time))
      (fun a => decide (c.start_time < a.start_time))
      (fun x => by simp [hst, hcc]) (dayGroup acts tid d),
    minByStart_map hst]

/-! Concrete rows and states used by witnesses and counterexamples. -/

def tplA : Template := { id := 1, name := "t", duration := 2 }

def sessC6 : Session :=
  { id := 1, template_id := 1, name := "s", current_day := 1, day_started := true,
    current_activity_id := none, end_date := none }

def stC6 : State := { templates := [tplA], activities := [], session := sessC6 }

def actC3 : Activity :=
  { id := 1, template_id := 1, day := 1, name := "a", start_time := 540, duration := 30,
    completed := true, actual_start_time := some 540, actual_end_time := some 570,
    actual_duration := some 30 }

def stC3 : State :=
  { templates := [tplA], activities := [actC3],
    session := { id := 1, template_id := 1, name := "s", current_day := 1,
                 day_started := true, current_activity_id := none, end_date := none } }

def actC5 : Activity :=
  { id := 1, template_id := 1, day := 1, name := "a", start_time := 1410, duration := 30,
    completed := false, actual_start_time := some 1410, actual_end_time := none,
    actual_duration := none }

def stC5 : State :=
  { templates := [tplA], activities := [actC5],
    session := { id := 1, template_id := 1, name := "s", current_day := 1,
                 day_started := true, current_activity_id := some 1, end_date := none } }

/-- Claim C6, counterexample to "returns an AlreadyStarted signal that is not
surfaced as a failure": on a session whose day is already started, `start_day`
responds with `success = false` — the route's own success flag marks the call
as failed. -/
theorem start_day_already_started_success_false :
    stC6.session.day_started = true ∧ (start_day 540 stC6).2.success = false :=
  ⟨rfl, rfl⟩

/-- Claim C6 (amended): when `day_started` is already true, `start_day` is a
no-op that changes no session or activity state, and returns `success = false`
with message "Day already started" at HTTP 200 (no error status code). -/
theorem start_day_already_started (now : Nat) (st : State)
    (h : st.session.day_started = true) :
    start_day now st = (st, ⟨false, "Day already started", 200⟩) := by
  simp [start_day, h]

/-- Witness for `start_day_already_started` at a concrete started session. -/
theorem start_day_already_started_witness :
    start_day 540 stC6 = (stC6, ⟨false, "Day already started", 200⟩) :=
  start_day_already_started 540 stC6 rfl

/-- Claim C3, counterexample: a session with a null cursor whose day-group is
nonempty, on which `undo_move` fails and changes nothing instead of selecting
the latest activity of the day. -/
theorem undo_move_null_cursor_cex :
    stC3.session.current_activity_id = none ∧
    dayGroup stC3.activities stC3.session.template_id stC3.session.current_day ≠ [] ∧
    (undo_move stC3).2.success = false ∧ (undo_move stC3).1 = stC3 := by
  refine ⟨rfl, by decide, rfl, rfl⟩

/-- Claim C3 (amended): whenever `current_activity_id` is null, `undo_move`
fails with "Cannot undo, no previous activity found" and changes no state,
regardless of the day-group's contents — it never selects the latest activity
of the day. -/
theorem undo_move_null_cursor (st : State)
    (h : st.session.current_activity_id = none) :
    undo_move st = (st, ⟨false, "Cannot undo, no previous activity found", 200⟩) := by
  simp [undo_move, h]

/-- Witness for `undo_move_null_cursor` at a concrete state with a nonempty
day-group. -/
theorem undo_move_null_cursor_witness :
    undo_move stC3 = (stC3, ⟨false, "Cannot undo, no previous activity found", 200⟩) :=
  undo_move_null_cursor stC3 rfl

/-- Claim C5, behavior at the failing input: with `actual_start_time` 23:30
(minute 1410) and the clock at 00:10 (minute 10), both `move_to_next_activity`
and `end_day` succeed and record `actual_duration = -1400` instead of rejecting
the midnight crossing with a `ValidationError`. -/
theorem midnight_crossing_records_negative :
    (move_to_next_activity 10 stC5).map
        (fun p => ((getActivity p.1.activities 1).map Activity.actual_duration, p.2.success))
      = some (some (some (-1400)), true) ∧
    (end_day 10 1 stC5).map
        (fun p => ((getActivity p.1.activities 1).map Activity.actual_duration, p.2.success))
      = some (some (some (-1400)), true) := by
  refine ⟨by decide, by decide⟩

/-- Claim C7: `start_session` creates a session with `current_day = 1` and
`day_started = false`; it fails with `NotFoundError` when the template id does
not resolve, and with `ValidationError` when the session name is empty. -/
theorem start_session_spec :
    (∀ tpls tid nm sid t, nm ≠ "" → getTemplate tpls tid = some t →
      ∃ s, start_session tpls (some tid) nm sid = Except.ok s ∧
        s.current_day = 1 ∧ s.day_started = false) ∧
    (∀ tpls tid nm sid, nm ≠ "" → getTemplate tpls tid = none →
      start_session tpls (some tid) nm sid = Except.error ErrKind.notFound) ∧
    (∀ tpls tid sid, start_session tpls tid "" sid = Except.error ErrKind.validation) := by
  refine ⟨?_, ?_, ?_⟩
  · intro tpls tid nm sid t hnm ht
    simp only [start_session, if_neg hnm, createSession, ht]
    exact ⟨_, rfl, rfl, rfl⟩
  · intro tpls tid nm sid hnm ht
    simp only [start_session, if_neg hnm, createSession, ht]
  · intro tpls tid sid
    cases tid <;> simp [start_session]

/-- Witness for `start_session_spec` at a one-template store. -/
theorem start_session_spec_witness :
    (∃ s, start_session [tplA] (some 1) "run" 5 = Except.ok s ∧
      s.current_day = 1 ∧ s.day_started = false) ∧
    start_session [tplA] (some 2) "run" 5 = Except.error ErrKind.notFound ∧
    start_session [tplA] (some 1) "" 5 = Except.error ErrKind.validation :=
  ⟨start_session_spec.1 [tplA] 1 "run" 5 tplA (by decide) rfl,
   start_session_spec.2.1 [tplA] 2 "run" 5 (by decide) rfl,
   start_session_spec.2.2 [tplA] (some 1) 5⟩

/-- Claim C8: for an activity `a` of a day-group that is not the last of its
day (`nextAfter` yields some `b`), and whose `start_time` is not shared with
any other activity of the day-group, `previousBefore` applied to `b` returns
`a` again (round-trip law). -/
theorem nextAfter_previousBefore_roundtrip (acts : List Activity) (tid d : Nat)
    (a b : Activity) (ha : a ∈ dayGroup acts tid d)
    (hties : ∀ c ∈ dayGroup acts tid d, c ≠ a → c.start_time ≠ a.start_time)
    (hnext : nextAfter acts tid d a = some b) :
    previousBefore acts tid d b = some a := by
  have hbmem := minByStart_mem hnext
  have hble := minByStart_le hnext
  rw [List.mem_filter] at hbmem
  obtain ⟨hbg, hab⟩ := hbmem
  have hab' : a.start_time < b.start_time := by simpa using hab
  unfold previousBefore
  apply maxByStart_eq_of_unique_max
  · rw [List.mem_filter]
    exact ⟨ha, by simpa using hab'⟩
  · intro c hc hca
    rw [List.mem_filter] at hc
    obtain ⟨hcg, hcb⟩ := hc
    have hcb' : c.start_time < b.start_time := by simpa using hcb
    have hne := hties c hcg hca
    by_cases hac : a.start_time < c.start_time
    · exfalso
      have hle : b.start_time ≤ c.start_time :=
        hble c (by rw [List.mem_filter]; exact ⟨hcg, by simpa using hac⟩)
      exact absurd hcb' (not_lt_of_le hle)
    · exact lt_of_le_of_ne (le_of_not_lt hac) hne

def actW1 : Activity :=
  { id := 1, template_id := 1, day := 1, name := "a", start_time := 540, duration := 30,
    completed := false, actual_start_time := none, actual_end_time := none,
    actual_duration := none }

def actW2 : Activity :=
  { id := 2, template_id := 1, day := 1, name := "b", start_time := 600, duration := 30,
    completed := false, actual_start_time := none, actual_end_time := none,
    actual_duration := none }

/-- Witness for `nextAfter_previousBefore_roundtrip` on a two-activity day. -/
theorem nextAfter_previousBefore_roundtrip_witness :
    previousBefore [actW1, actW2] 1 1 actW2 = some actW1 :=
  nextAfter_previousBefore_roundtrip [actW1, actW2] 1 1 actW1 actW2
    (by decide) (by decide) (by decide)

theorem stampStart_keys (now : Nat) : keepsKeys (stampStart now) :=
  fun _ => ⟨rfl, rfl, rfl, rfl⟩

theorem closeOut_keys (now s : Nat) : keepsKeys (closeOut now s) :=
  fun _ => ⟨rfl, rfl, rfl, rfl⟩

theorem finishOut_keys (now s : Nat) : keepsKeys (finishOut now s) :=
  fun _ => ⟨rfl, rfl, rfl, rfl⟩

theorem clearTiming_keys : keepsKeys clearTiming :=
  fun _ => ⟨rfl, rfl, rfl, rfl⟩

theorem revertPrev_keys : keepsKeys revertPrev :=
  fun _ => ⟨rfl, rfl, rfl, rfl⟩

theorem update_keepsKeys (aid : Nat) (f : Activity → Activity) (hf : keepsKeys f) :
    keepsKeys (fun a => if a.id == aid then f a else a) := by
  intro a
  by_cases h : a.id == aid <;> simp [h, hf a]

theorem getActivity_update (f : Activity → Activity) (hf : keepsKeys f)
    (acts : List Activity) (aid x : Nat) :
    getActivity (updateActivity acts aid f) x =
      (getActivity acts x).map (fun a => if a.id == aid then f a else a) := by
  unfold updateActivity
  exact getActivity_map (fun a => (update_keepsKeys aid f hf a).1) acts x

theorem getActivity_update_self (f : Activity → Activity) (hf : keepsKeys f)
    {acts : List Activity} {aid : Nat} {cur : Activity}
    (h : getActivity acts aid = some cur) :
    getActivity (updateActivity acts aid f) aid = some (f cur) := by
  rw [getActivity_update f hf, h]
  simp [getActivity_id h]

theorem getActivity_update_other (f : Activity → Activity) (hf : keepsKeys f)
    {acts : List Activity} {aid x : Nat} (hne : x ≠ aid) :
    getActivity (updateActivity acts aid f) x = getActivity acts x := by
  rw [getActivity_update f hf]
  cases h : getActivity acts x with
  | none => rfl
  | some a => simp [getActivity_id h, hne]

theorem update_nodup (f : Activity → Activity) (hf : keepsKeys f)
    {acts : List Activity} (hnd : (acts.map Activity.id).Nodup) (aid : Nat) :
    ((updateActivity acts aid f).map Activity.id).Nodup := by
  unfold updateActivity
  rw [map_id_map (fun x => (update_keepsKeys aid f hf x).1)]
  exact hnd

theorem dayGroup_update (f : Activity → Activity) (hf : keepsKeys f)
    (acts : List Activity) (aid tid d : Nat) :
    dayGroup (updateActivity acts aid f) tid d =
      (dayGroup acts tid d).map (fun a => if a.id == aid then f a else a) := by
  unfold updateActivity
  exact dayGroup_map
    (fun x => ⟨(update_keepsKeys aid f hf x).2.1, (update_keepsKeys aid f hf x).2.2.1⟩)
    acts tid d

theorem nextAfter_update (f : Activity → Activity) (hf : keepsKeys f)
    (acts : List Activity) (aid tid d : Nat) {c c' : Activity}
    (hcc : c'.start_time = c.start_time) :
    nextAfter (updateActivity acts aid f) tid d c' =
      (nextAfter acts tid d c).map (fun a => if a.id == aid then f a else a) := by
  unfold updateActivity
  exact nextAfter_map
    (fun x => ⟨(update_keepsKeys aid f hf x).2.1, (update_keepsKeys aid f hf x).2.2.1⟩)
    (fun x => (update_keepsKeys aid f hf x).2.2.2) acts tid d hcc

/-- Claim C9: on a session with a truthy cursor whose activity resolves and
has a previous activity in the day-group, `undo_move` clears the current
activity's `actual_start_time`/`actual_end_time`/`actual_duration`, resets only
`completed`, `actual_end_time`, and `actual_duration` on the previous activity
(its `actual_start_time` is untouched), repoints the cursor at the previous
activity, and modifies nothing else. -/
theorem undo_move_frame (st : State) (aid : Nat) (cur p : Activity)
    (hnd : (st.activities.map Activity.id).Nodup)
    (hcur : st.session.current_activity_id = some aid) (haid : aid ≠ 0)
    (hget : getActivity st.activities aid = some cur)
    (hprev : previousBefore st.activities st.session.template_id st.session.current_day cur
      = some p) :
    ∃ st', undo_move st = (st', ⟨true, "Undo successful", 200⟩) ∧
      st'.session = { st.session with current_activity_id := some p.id } ∧
      st'.templates = st.templates ∧
      getActivity st'.activities aid =
        some { cur with actual_start_time := none, actual_end_time := none,
                        actual_duration := none } ∧
      getActivity st'.activities p.id =
        some { p with completed := false, actual_end_time := none,
                      actual_duration := none } ∧
      ∀ x ∈ st.activities, x.id ≠ aid → x.id ≠ p.id → x ∈ st'.activities := by
  have hcurid : cur.id = aid := getActivity_id hget
  have hcmem : cur ∈ st.activities := getActivity_mem hget
  have hpfilter := maxByStart_mem hprev
  rw [List.mem_filter] at hpfilter
  obtain ⟨hpg, hplt⟩ := hpfilter
  have hplt' : p.start_time < cur.start_time := by simpa using hplt
  have hpmem : p ∈ st.activities := (mem_dayGroup hpg).1
  have hpa : p.id ≠ aid := by
    intro he
    have hpc : p = cur := mem_id_inj hnd hpmem hcmem (by rw [he, hcurid])
    rw [hpc] at hplt'
    exact lt_irrefl _ hplt'
  have hred : undo_move st =
      ({ st with
          activities := updateActivity
            (updateActivity st.activities cur.id clearTiming) p.id revertPrev
          session := { st.session with current_activity_id := some p.id } },
       ⟨true, "Undo successful", 200⟩) := by
    simp only [undo_move, hcur, ne_eq, haid, not_false_eq_true, if_true, hget, hprev]
  have haid' : aid ≠ p.id := fun h => hpa h.symm
  have hget' : getActivity st.activities cur.id = some cur := by rw [hcurid]; exact hget
  have hpc : p.id ≠ cur.id := by rw [hcurid]; exact hpa
  refine ⟨_, hred, rfl, rfl, ?_, ?_, ?_⟩
  · dsimp only
    rw [getActivity_update_other revertPrev revertPrev_keys haid', ← hcurid,
      getActivity_update_self clearTiming clearTiming_keys hget']
    rfl
  · dsimp only
    rw [getActivity_update_self revertPrev revertPrev_keys
      (by rw [getActivity_update_other clearTiming clearTiming_keys hpc]
          exact getActivity_of_mem_nodup hnd hpmem)]
    rfl
  · intro x hx hx1 hx2
    dsimp only
    unfold updateActivity
    have hxc : (x.id == cur.id) = false := by
      rw [hcurid]
      simp [hx1]
    have hxp : (x.id == p.id) = false := by simp [hx2]
    have h1 : x ∈ st.activities.map (fun a => if a.id == cur.id then clearTiming a else a) := by
      have hm := List.mem_map_of_mem (fun a => if a.id == cur.id then clearTiming a else a) hx
      simpa [hxc] using hm
    have hm2 := List.mem_map_of_mem (fun a => if a.id == p.id then revertPrev a else a) h1
    simpa [hxp] using hm2

def actW9a : Activity :=
  { id := 1, template_id := 1, day := 1, name := "a", start_time := 540, duration := 30,
    completed := true, actual_start_time := some 540, actual_end_time := some 600,
    actual_duration := some 60 }

def actW9b : Activity :=
  { id := 2, template_id := 1, day := 1, name := "b", start_time := 600, duration := 30,
    completed := false, actual_start_time := some 600, actual_end_time := none,
    actual_duration := none }

def stW9 : State :=
  { templates := [tplA], activities := [actW9a, actW9b],
    session := { id := 1, template_id := 1, name := "s", current_day := 1,
                 day_started := true, current_activity_id := some 2, end_date := none } }

/-- Witness for `undo_move_frame` at a two-activity day with the cursor on the
second activity. -/
theorem undo_move_frame_witness :
    ∃ st', undo_move stW9 = (st', ⟨true, "Undo successful", 200⟩) ∧
      st'.session = { stW9.session with current_activity_id := some actW9a.id } ∧
      st'.templates = stW9.templates ∧
      getActivity st'.activities 2 =
        some { actW9b with actual_start_time := none, actual_end_time := none,
                           actual_duration := none } ∧
      getActivity st'.activities actW9a.id =
        some { actW9a with completed := false, actual_end_time := none,
                           actual_duration := none } ∧
      ∀ x ∈ stW9.activities, x.id ≠ 2 → x.id ≠ actW9a.id → x ∈ st'.activities :=
  undo_move_frame stW9 2 actW9b actW9a (by decide) rfl (by decide) (by decide) (by decide)

theorem closeCurrentActivity_open (now : Nat) {st : State} {aid : Nat} {cur : Activity}
    {s : Nat} (hcur : st.session.current_activity_id = some aid) (haid : aid ≠ 0)
    (hget : getActivity st.activities aid = some cur)
    (hopen : cur.actual_end_time = none) (hs : cur.actual_start_time = some s) :
    closeCurrentActivity now st = some (updateActivity st.activities aid (closeOut now s)) := by
  simp only [closeCurrentActivity, hcur, ne_eq, haid, not_false_eq_true, if_true, hget,
    hopen, hs]

/-- Claim C10: on a session with an open current activity (null
`actual_end_time`), `end_day` closes it by setting only `actual_end_time` and
`actual_duration` — the `completed` flag is left unchanged, so an activity cut
off by `end_day` is never marked completed. -/
theorem end_day_keeps_completed (now today : Nat) (st : State)
    (aid : Nat) (cur : Activity) (s : Nat) (t : Template)
    (hcur : st.session.current_activity_id = some aid) (haid : aid ≠ 0)
    (hget : getActivity st.activities aid = some cur)
    (hopen : cur.actual_end_time = none) (hs : cur.actual_start_time = some s)
    (ht : getTemplate st.templates st.session.template_id = some t) :
    ∃ st' r, end_day now today st = some (st', r) ∧
      getActivity st'.activities aid = some (closeOut now s cur) ∧
      closeOut now s cur =
        { cur with actual_end_time := some now,
                   actual_duration := some ((now : Int) - (s : Int)) } ∧
      (closeOut now s cur).completed = cur.completed := by
  have hclose := closeCurrentActivity_open now hcur haid hget hopen hs
  refine ⟨_, _, by simp only [end_day, hclose, ht]; rfl, ?_, rfl, rfl⟩
  dsimp only
  rw [getActivity_update_self (closeOut now s) (closeOut_keys now s) hget]

def actW10 : Activity :=
  { id := 1, template_id := 1, day := 1, name := "a", start_time := 540, duration := 30,
    completed := false, actual_start_time := some 540, actual_end_time := none,
    actual_duration := none }

def stW10 : State :=
  { templates := [tplA], activities := [actW10],
    session := { id := 1, template_id := 1, name := "s", current_day := 1,
                 day_started := true, current_activity_id := some 1, end_date := none } }

/-- Witness for `end_day_keeps_completed` on a one-activity day cut off at
10:00. -/
theorem end_day_keeps_completed_witness :
    ∃ st' r, end_day 600 7 stW10 = some (st', r) ∧
      getActivity st'.activities 1 = some (closeOut 600 540 actW10) ∧
      closeOut 600 540 actW10 =
        { actW10 with actual_end_time := some 600,
                      actual_duration := some ((600 : Int) - (540 : Int)) } ∧
      (closeOut 600 540 actW10).completed = actW10.completed :=
  end_day_keeps_completed 600 7 stW10 1 actW10 540 tplA rfl (by decide) rfl rfl rfl rfl

/-- Claim C4: `end_day` closes a still-open current activity (stamping
`actual_end_time = now` and computing `actual_duration`), increments
`current_day`, resets `day_started` and nulls the cursor; it sets `end_date`
to the current date exactly when the incremented `current_day` exceeds the
owning template's `duration`, and otherwise leaves `end_date` unchanged. -/
theorem end_day_spec (now today : Nat) (st : State) (t : Template)
    (ht : getTemplate st.templates st.session.template_id = some t)
    (hsafe : ∀ aid cur, st.session.current_activity_id = some aid → aid ≠ 0 →
      getActivity st.activities aid = some cur → cur.actual_end_time = none →
      cur.actual_start_time ≠ none) :
    ∃ st' r, end_day now today st = some (st', r) ∧
      st'.session.current_day = st.session.current_day + 1 ∧
      st'.session.day_started = false ∧
      st'.session.current_activity_id = none ∧
      (st.session.current_day + 1 > t.duration → st'.session.end_date = some today) ∧
      (¬ st.session.current_day + 1 > t.duration →
        st'.session.end_date = st.session.end_date) ∧
      (∀ aid cur s, st.session.current_activity_id = some aid → aid ≠ 0 →
        getActivity st.activities aid = some cur → cur.actual_end_time = none →
        cur.actual_start_time = some s →
        getActivity st'.activities aid = some (closeOut now s cur)) := by
  have hclose : ∃ acts1, closeCurrentActivity now st = some acts1 := by
    cases hcur : st.session.current_activity_id with
    | none => exact ⟨st.activities, by simp [closeCurrentActivity, hcur]⟩
    | some aid =>
      by_cases haid : aid = 0
      · exact ⟨st.activities, by simp [closeCurrentActivity, hcur, haid]⟩
      · cases hget : getActivity st.activities aid with
        | none => exact ⟨st.activities, by simp [closeCurrentActivity, hcur, haid, hget]⟩
        | some cur =>
          by_cases hopen : cur.actual_end_time = none
          · cases hs : cur.actual_start_time with
            | none => exact absurd hs (hsafe aid cur hcur haid hget hopen)
            | some s =>
              exact ⟨updateActivity st.activities aid (closeOut now s),
                closeCurrentActivity_open now hcur haid hget hopen hs⟩
          · exact ⟨st.activities, by simp [closeCurrentActivity, hcur, haid, hget, hopen]⟩
  obtain ⟨acts1, hac⟩ := hclose
  refine ⟨_, _, by simp only [end_day, hac, ht]; rfl, ?_, ?_, ?_, ?_, ?_, ?_⟩
  · dsimp only
    split <;> rfl
  · dsimp only
    split <;> rfl
  · dsimp only
    split <;> rfl
  · intro hcond
    dsimp only
    rw [if_pos hcond]
  · intro hcond
    dsimp only
    rw [if_neg hcond]
  · intro aid cur s hcur haid hget hopen hs
    have h2 := closeCurrentActivity_open now hcur haid hget hopen hs
    rw [hac] at h2
    have hacts : acts1 = updateActivity st.activities aid (closeOut now s) :=
      Option.some.inj h2
    dsimp only
    rw [hacts, getActivity_update_self (closeOut now s) (closeOut_keys now s) hget]

def stW4 : State :=
  { templates := [tplA], activities := [actW10],
    session := { id := 1, template_id := 1, name := "s", current_day := 2,
                 day_started := true, current_activity_id := some 1, end_date := none } }

/-- Witness for `end_day_spec` on the last day of a duration-2 template: the
incremented day exceeds the duration, so `end_date` is stamped. -/
theorem end_day_spec_witness :
    ∃ st' r, end_day 600 7 stW4 = some (st', r) ∧
      st'.session.current_day = stW4.session.current_day + 1 ∧
      st'.session.day_started = false ∧
      st'.session.current_activity_id = none ∧
      (stW4.session.current_day + 1 > tplA.duration → st'.session.end_date = some 7) ∧
      (¬ stW4.session.current_day + 1 > tplA.duration →
        st'.session.end_date = stW4.session.end_date) ∧
      (∀ aid cur s, stW4.session.current_activity_id = some aid → aid ≠ 0 →
        getActivity stW4.activities aid = some cur → cur.actual_end_time = none →
        cur.actual_start_time = some s →
        getActivity st'.activities aid = some (closeOut 600 s cur)) :=
  end_day_spec 600 7 stW4 tplA rfl
    (by intro aid cur h1 h2 h3 h4
        injection h1 with h1
        subst h1
        injection h3 with h3
        subst h3
        simp [actW10])

/-- Claim C1: on a session whose non-null cursor resolves to an activity (with
a parseable `actual_start_time`), `move_to_next_activity` marks that activity
completed, stamps `actual_end_time = now`, records `actual_duration` as the
elapsed minutes between `actual_start_time` and `actual_end_time`, and then
moves the cursor to the same-day activity with the smallest `start_time`
strictly greater than the finished one's (stamping its `actual_start_time`),
or to null when no such activity exists. -/
theorem move_to_next_activity_spec (now : Nat) (st : State) (aid : Nat) (cur : Activity)
    (s : Nat) (hnd : (st.activities.map Activity.id).Nodup)
    (hcur : st.session.current_activity_id = some aid)
    (hget : getActivity st.activities aid = some cur)
    (hs : cur.actual_start_time = some s) :
    ∃ st', move_to_next_activity now st =
        some (st', ⟨true, "Moved to next activity successfully", 200⟩) ∧
      getActivity st'.activities aid = some (finishOut now s cur) ∧
      finishOut now s cur =
        { cur with completed := true, actual_end_time := some now,
                   actual_duration := some ((now : Int) - (s : Int)) } ∧
      (∀ n, nextAfter st.activities st.session.template_id st.session.current_day cur
          = some n →
        st'.session.current_activity_id = some n.id ∧
        getActivity st'.activities n.id = some (stampStart now n)) ∧
      (nextAfter st.activities st.session.template_id st.session.current_day cur = none →
        st'.session.current_activity_id = none) := by
  have hcurid : cur.id = aid := getActivity_id hget
  have hcmem : cur ∈ st.activities := getActivity_mem hget
  have hnext_eq : get_next_activity
        { st with activities := updateActivity st.activities aid (finishOut now s) } =
      (nextAfter st.activities st.session.template_id st.session.current_day cur).map
        (fun a => if a.id == aid then finishOut now s a else a) := by
    simp only [get_next_activity, hcur,
      getActivity_update_self (finishOut now s) (finishOut_keys now s) hget]
    exact nextAfter_update (finishOut now s) (finishOut_keys now s) st.activities aid
      st.session.template_id st.session.current_day rfl
  cases hn : nextAfter st.activities st.session.template_id st.session.current_day cur with
  | none =>
    have hred : move_to_next_activity now st =
        some ({ st with
                  activities := updateActivity st.activities aid (finishOut now s)
                  session := { st.session with current_activity_id := none } },
              ⟨true, "Moved to next activity successfully", 200⟩) := by
      simp only [move_to_next_activity, hcur, hget, hs]
      rw [hnext_eq, hn]
      rfl
    refine ⟨_, hred, ?_, rfl, ?_, ?_⟩
    · dsimp only
      rw [getActivity_update_self (finishOut now s) (finishOut_keys now s) hget]
    · intro n h
      exact Option.noConfusion h
    · intro _
      rfl
  | some n0 =>
    have hn0f := minByStart_mem hn
    rw [List.mem_filter] at hn0f
    obtain ⟨hn0g, hn0lt⟩ := hn0f
    have hn0lt' : cur.start_time < n0.start_time := by simpa using hn0lt
    obtain ⟨hn0c, hn0t, hn0d⟩ := mem_dayGroup hn0g
    have hna : n0.id ≠ aid := by
      intro he
      have h2 : n0 = cur := mem_id_inj hnd hn0c hcmem (by rw [he, hcurid])
      rw [h2] at hn0lt'
      exact lt_irrefl _ hn0lt'
    have hnb : (n0.id == aid) = false := by simp [hna]
    have hred : move_to_next_activity now st =
        some ({ st with
                  activities := updateActivity
                    (updateActivity st.activities aid (finishOut now s)) n0.id
                    (stampStart now)
                  session := { st.session with current_activity_id := some n0.id } },
              ⟨true, "Moved to next activity successfully", 200⟩) := by
      have hmap : Option.map (fun a => if a.id == aid then finishOut now s a else a)
          (some n0) = some n0 := by simp [hna]
      simp only [move_to_next_activity, hcur, hget, hs]
      rw [hnext_eq, hn, hmap]
    have hget1 : getActivity
        (updateActivity st.activities aid (finishOut now s)) n0.id = some n0 := by
      rw [getActivity_update_other (finishOut now s) (finishOut_keys now s) hna]
      exact getActivity_of_mem_nodup hnd hn0c
    refine ⟨_, hred, ?_, rfl, ?_, ?_⟩
    · dsimp only
      rw [getActivity_update_other (stampStart now) (stampStart_keys now)
          (fun h => hna h.symm),
        getActivity_update_self (finishOut now s) (finishOut_keys now s) hget]
    · intro n h
      have hnn : n0 = n := Option.some.inj h
      subst hnn
      refine ⟨rfl, ?_⟩
      dsimp only
      rw [getActivity_update_self (stampStart now) (stampStart_keys now) hget1]
    · intro h
      exact Option.noConfusion h

def actM1 : Activity :=
  { id := 1, template_id := 1, day := 1, name := "a", start_time := 540, duration := 30,
    completed := false, actual_start_time := some 540, actual_end_time := none,
    actual_duration := none }

def actM2 : Activity :=
  { id := 2, template_id := 1, day := 1, name := "b", start_time := 600, duration := 30,
    completed := false, actual_start_time := none, actual_end_time := none,
    actual_duration := none }

def stM : State :=
  { templates := [tplA], activities := [actM1, actM2],
    session := { id := 1, template_id := 1, name := "s", current_day := 1,
                 day_started := true, current_activity_id := some 1, end_date := none } }

/-- Witness for `move_to_next_activity_spec` advancing from the 09:00 activity
to the 10:00 activity at clock 10:00. -/
theorem move_to_next_activity_spec_witness :
    ∃ st', move_to_next_activity 600 stM =
        some (st', ⟨true, "Moved to next activity successfully", 200⟩) ∧
      getActivity st'.activities 1 = some (finishOut 600 540 actM1) ∧
      finishOut 600 540 actM1 =
        { actM1 with completed := true, actual_end_time := some 600,
                     actual_duration := some ((600 : Int) - (540 : Int)) } ∧
      (∀ n, nextAfter stM.activities stM.session.template_id stM.session.current_day actM1
          = some n →
        st'.session.current_activity_id = some n.id ∧
        getActivity st'.activities n.id = some (stampStart 600 n)) ∧
      (nextAfter stM.activities stM.session.template_id stM.session.current_day actM1
          = none →
        st'.session.current_activity_id = none) :=
  move_to_next_activity_spec 600 stM 1 actM1 540 (by decide) rfl rfl rfl

/-- Claim C2: each of `start_day`, `move_to_next_activity`, `undo_move`, and
`end_day` preserves the data-model invariant that a non-null
`current_activity_id` references an activity of the session's
`(template_id, current_day)` day-group — every operation installs a cursor
drawn from that day-group, or null. -/
theorem cursor_invariant_preserved (now today : Nat) (st : State)
    (hnd : (st.activities.map Activity.id).Nodup) (hinv : cursorInv st) :
    cursorInv (start_day now st).1 ∧
    (∀ st' r, move_to_next_activity now st = some (st', r) → cursorInv st') ∧
    cursorInv (undo_move st).1 ∧
    (∀ st' r, end_day now today st = some (st', r) → cursorInv st') := by
  refine ⟨?_, ?_, ?_, ?_⟩
  · -- start_day
    cases hds : st.session.day_started with
    | true =>
      have he : (start_day now st).1 = st := by simp [start_day, hds]
      rw [he]
      exact hinv
    | false =>
      cases hfa : get_first_activity_of_day
          { st with session := { st.session with day_started := true } } with
      | none =>
        have he : (start_day now st).1 =
            { st with session := { st.session with day_started := true } } := by
          simp [start_day, hds, hfa]
        rw [he]
        exact fun aid h => hinv aid h
      | some fa =>
        have hfam := minByStart_mem hfa
        obtain ⟨hfac, hfat, hfad⟩ := mem_dayGroup hfam
        have he : (start_day now st).1 =
            { st with
                session :=
                  { st.session with
                      day_started := true
                      current_activity_id := some fa.id }
                activities := updateActivity st.activities fa.id (stampStart now) } := by
          simp [start_day, hds, hfa]
        rw [he]
        intro aid h
        have haid : aid = fa.id := (Option.some.inj h).symm
        subst haid
        exact ⟨stampStart now fa,
          getActivity_update_self (stampStart now) (stampStart_keys now)
            (getActivity_of_mem_nodup hnd hfac), hfat, hfad⟩
  · -- move_to_next_activity
    intro st' r hmv
    cases hcur : st.session.current_activity_id with
    | none =>
      simp only [move_to_next_activity, hcur, Option.some.injEq, Prod.mk.injEq] at hmv
      exact hmv.1 ▸ hinv
    | some aid =>
      cases hget : getActivity st.activities aid with
      | none =>
        simp only [move_to_next_activity, hcur, hget, Option.some.injEq,
          Prod.mk.injEq] at hmv
        exact hmv.1 ▸ hinv
      | some cur =>
        cases hs : cur.actual_start_time with
        | none =>
          simp only [move_to_next_activity, hcur, hget, hs] at hmv
          exact Option.noConfusion hmv
        | some s =>
          simp only [move_to_next_activity, hcur, hget, hs] at hmv
          cases hn : get_next_activity
              { st with activities := updateActivity st.activities aid (finishOut now s) } with
          | none =>
            rw [hn] at hmv
            simp only [Option.some.injEq, Prod.mk.injEq] at hmv
            rw [← hmv.1]
            intro aid' h
            exact Option.noConfusion h
          | some n =>
            rw [hn] at hmv
            simp only [Option.some.injEq, Prod.mk.injEq] at hmv
            rw [← hmv.1]
            -- n comes from the day-group of the updated activity list
            have hn' := hn
            simp only [get_next_activity, hcur,
              getActivity_update_self (finishOut now s) (finishOut_keys now s) hget] at hn'
            have hnmem := minByStart_mem hn'
            rw [List.mem_filter] at hnmem
            obtain ⟨hng, _⟩ := hnmem
            obtain ⟨hnc, hnt, hnd'⟩ := mem_dayGroup hng
            have hnd1 : ((updateActivity st.activities aid (finishOut now s)).map
                Activity.id).Nodup :=
              update_nodup (finishOut now s) (finishOut_keys now s) hnd aid
            intro aid' h
            have haid : aid' = n.id := (Option.some.inj h).symm
            subst haid
            exact ⟨stampStart now n,
              getActivity_update_self (stampStart now) (stampStart_keys now)
                (getActivity_of_mem_nodup hnd1 hnc), hnt, hnd'⟩
  · -- undo_move
    cases hcur : st.session.current_activity_id with
    | none =>
      have he : (undo_move st).1 = st := by simp [undo_move, hcur]
      rw [he]
      exact hinv
    | some aid =>
      by_cases haid : aid = 0
      · have he : (undo_move st).1 = st := by simp [undo_move, hcur, haid]
        rw [he]
        exact hinv
      · cases hget : getActivity st.activities aid with
        | none =>
          have he : (undo_move st).1 = st := by simp [undo_move, hcur, haid, hget]
          rw [he]
          exact hinv
        | some cur =>
          cases hprev : previousBefore st.activities st.session.template_id
              st.session.current_day cur with
          | none =>
            have he : (undo_move st).1 = st := by
              simp [undo_move, hcur, haid, hget, hprev]
            rw [he]
            exact hinv
          | some p =>
            have hcurid : cur.id = aid := getActivity_id hget
            have hcmem : cur ∈ st.activities := getActivity_mem hget
            have hpf := maxByStart_mem hprev
            rw [List.mem_filter] at hpf
            obtain ⟨hpg, hplt⟩ := hpf
            have hplt' : p.start_time < cur.start_time := by simpa using hplt
            obtain ⟨hpc, hpt, hpd⟩ := mem_dayGroup hpg
            have hpid : p.id ≠ cur.id := by
              intro he
              have h2 : p = cur := mem_id_inj hnd hpc hcmem he
              rw [h2] at hplt'
              exact lt_irrefl _ hplt'
            have he : (undo_move st).1 =
                { st with
                    activities := updateActivity
                      (updateActivity st.activities cur.id clearTiming) p.id revertPrev
                    session := { st.session with current_activity_id := some p.id } } := by
              simp [undo_move, hcur, haid, hget, hprev]
            rw [he]
            intro aid' h
            have haid' : aid' = p.id := (Option.some.inj h).symm
            subst haid'
            have hp1 : getActivity (updateActivity st.activities cur.id clearTiming) p.id
                = some p := by
              rw [getActivity_update_other clearTiming clearTiming_keys hpid]
              exact getActivity_of_mem_nodup hnd hpc
            exact ⟨revertPrev p,
              getActivity_update_self revertPrev revertPrev_keys hp1, hpt, hpd⟩
  · -- end_day
    intro st' r he
    cases hac : closeCurrentActivity now st with
    | none => simp [end_day, hac] at he
    | some acts1 =>
      cases ht : getTemplate st.templates st.session.template_id with
      | none => simp [end_day, hac, ht] at he
      | some t =>
        simp only [end_day, hac, ht, Option.some.injEq, Prod.mk.injEq] at he
        rw [← he.1]
        intro aid h
        dsimp only at h
        split at h <;> exact Option.noConfusion h

def actC2 : Activity :=
  { id := 1, template_id := 1, day := 1, name := "a", start_time := 540, duration := 30,
    completed := false, actual_start_time := some 540, actual_end_time := none,
    actual_duration := none }

def stC2 : State :=
  { templates := [tplA], activities := [actC2],
    session := { id := 1, template_id := 1, name := "s", current_day := 1,
                 day_started := true, current_activity_id := some 1, end_date := none } }

/-- Witness for `cursor_invariant_preserved` at a concrete mid-day state whose
cursor points at the day's only activity. -/
theorem cursor_invariant_preserved_witness :
    cursorInv (start_day 600 stC2).1 ∧
    (∀ st' r, move_to_next_activity 600 stC2 = some (st', r) → cursorInv st') ∧
    cursorInv (undo_move stC2).1 ∧
    (∀ st' r, end_day 600 7 stC2 = some (st', r) → cursorInv st') :=
  cursor_invariant_preserved 600 7 stC2 (by decide)
    (by intro aid h
        injection h with h
        subst h
        exact ⟨actC2, rfl, rfl, rfl⟩)

end OnTrak
